import Mathlib

/-!
Verification of the deterministic file-numbering, chunk-splitting and
duration-triage logic of the yt_down scripts.

The scripts' pure logic is shallowly embedded here:

* `get_next_vocal_number` (vocal_only1.py lines 108-147, vocal_only.py
  lines 88-130): the numbering counter.  A directory is modelled as a
  flag saying whether it exists together with the list of entry
  basenames; the function returns the computed number and whether the
  directory was created.
* `split_wav_file` (vocal_only1.py lines 150-222, vocal_only.py lines
  133-182): the segmenter.  The audio track is modelled by its total
  length in milliseconds (pydub's unit); the loop over chunks is a fold
  that records, for each chunk, the exported file (name, start, end) and
  the CSV row written.
* `process_wav_files` (remove_file.py lines 24-87): the triage sweeper.
  A source file is modelled by its measured duration, `none` when
  `get_wav_duration` fails; the destination directory by the finite set
  of vocal numbers already present.
* `process_youtube_video` (vocal_only1.py lines 243-295, vocal_only.py
  lines 203-255): the pipeline driver, with the three fallible steps
  (download, separation, split) passed in as `Except`-valued arguments.
-/

namespace YtDown

/-! ### Filenames and digit extraction -/

/-- The chunk filename `f'vocal{n}.wav'` built by the scripts. -/
def vocalFilename (n : ℕ) : String :=
  "vocal" ++ toString n ++ ".wav"

/-- Whether a basename matches the glob pattern `vocal*.wav` used in
`glob.glob(os.path.join(output_dir, 'vocal*.wav'))`. -/
def globMatchVocalWav (name : String) : Bool :=
  List.isPrefixOf "vocal".data name.data && List.isSuffixOf ".wav".data name.data

/-- `os.path.splitext` applied to a basename ending in `.wav`: the stem
with the final `.wav` removed. -/
def stemNoWav (name : String) : String :=
  String.mk (name.data.take (name.data.length - 4))

/-- `''.join(filter(str.isdigit, name))`: the digit characters of a
string, concatenated in order. -/
def pyDigits (s : String) : String :=
  String.mk (s.data.filter Char.isDigit)

/-- Python's `str.isdigit`: non-empty and every character a digit. -/
def pyIsDigitStr (s : String) : Bool :=
  !s.isEmpty && s.data.all Char.isDigit

/-- `int(s)` on a decimal digit string. -/
def decimalValue (s : String) : ℕ :=
  s.data.foldl (fun v c => v * 10 + (c.toNat - 48)) 0

/-! ### The numbering counter (`get_next_vocal_number`) -/

/-- `get_next_vocal_number(output_dir)`.  The directory is modelled by
`dirExists` and the list `entries` of basenames it contains.  Returns
the computed next number together with a flag recording whether
`os.makedirs` was called (the absent-directory branch). -/
def get_next_vocal_number (dirExists : Bool) (entries : List String) : ℕ × Bool :=
  if !dirExists then (1, true)
  else
    let existing_files := entries.filter globMatchVocalWav
    let max_number := existing_files.foldl
      (fun max_number file =>
        let name := stemNoWav file
        let number_part := pyDigits name
        if pyIsDigitStr number_part then
          let number := decimalValue number_part
          if number > max_number then number else max_number
        else max_number) 0
    (max_number + 1, false)

/-- The numbers the counter actually extracts from a directory listing:
for each entry matching the glob whose stem contains at least one digit
character, the decimal value of all its digit characters concatenated. -/
def vocalNumbersOf (entries : List String) : List ℕ :=
  (entries.filter globMatchVocalWav).filterMap
    (fun f =>
      if pyIsDigitStr (pyDigits (stemNoWav f)) then
        some (decimalValue (pyDigits (stemNoWav f)))
      else none)

/-- From the claim's words (C1/C2): a basename of the exact form
`vocal<digits>.wav`, i.e. matching the glob and whose stem after
`vocal` is a non-empty digit string. -/
def specVocalDigitsName (name : String) : Bool :=
  globMatchVocalWav name && pyIsDigitStr (String.mk ((stemNoWav name).data.drop 5))

/-! ### Time formatting (`format_time`, vocal_only1.py lines 26-38) -/

/-- Python `f"{n:02}"` for a natural number. -/
def pad2 (n : ℕ) : String :=
  if n < 10 then "0" ++ toString n else toString n

/-- `format_time(ms)`: milliseconds rendered as zero-padded `HH:MM:SS`. -/
def format_time (ms : ℕ) : String :=
  let seconds := ms / 1000
  let minutes := seconds / 60
  let hours := minutes / 60
  let seconds2 := seconds % 60
  let minutes2 := minutes % 60
  pad2 hours ++ ":" ++ pad2 minutes2 ++ ":" ++ pad2 seconds2

/-! ### The segmenter (`split_wav_file`) -/

/-- One exported chunk file: its name and the time range it covers, in
milliseconds. -/
structure ChunkFile where
  filename : String
  start_ms : ℕ
  end_ms : ℕ
deriving DecidableEq

/-- The observable state of one `split_wav_file` call: the running
`current_number`, the chunk files exported so far (in order) and the CSV
rows written so far (in order). -/
structure SplitState where
  current_number : ℕ
  files : List ChunkFile
  csv_rows : List (List String)
deriving DecidableEq

/-- `num_chunks = int(total // chunk_ms) + (1 if total % chunk_ms > 0 else 0)`
(vocal_only1.py line 168, with `chunk_ms = chunk_length_sec * 1000`). -/
def num_chunks (total_length_ms chunk_length_ms : ℕ) : ℕ :=
  total_length_ms / chunk_length_ms +
    (if total_length_ms % chunk_length_ms > 0 then 1 else 0)

/-- One iteration of the chunk loop (vocal_only1.py lines 191-219):
compute the clamped range, export `vocal{current_number}.wav`, write the
CSV row, increment the number. -/
def splitIter (total_length_ms chunk_length_ms : ℕ) (st : SplitState) (i : ℕ) :
    SplitState :=
  let start_ms := i * chunk_length_ms
  let end_ms := min (start_ms + chunk_length_ms) total_length_ms
  let output_filename := vocalFilename st.current_number
  { current_number := st.current_number + 1
    files := st.files ++ [⟨output_filename, start_ms, end_ms⟩]
    csv_rows :=
      st.csv_rows ++ [[output_filename, format_time start_ms, format_time end_ms]] }

/-- `split_wav_file(input_wav, output_dir, chunk_length_sec, start_number)`
for a track of `total_length_ms` milliseconds: the chunk loop as a fold
over `range(num_chunks)`. -/
def split_wav_file (total_length_ms chunk_length_sec start_number : ℕ) : SplitState :=
  (List.range (num_chunks total_length_ms (chunk_length_sec * 1000))).foldl
    (splitIter total_length_ms (chunk_length_sec * 1000))
    ⟨start_number, [], []⟩

/-- The header row written once per CSV log file. -/
def csvHeader : List String :=
  ["Filename", "Start Time", "End Time"]

/-- The contents of `time_ranges.csv` after one `split_wav_file` call
(vocal_only1.py lines 177-188): the file is opened in append mode, and
the header row is written first exactly when the file did not exist. -/
def csvFileAfter (prior : Option (List (List String))) (rows : List (List String)) :
    List (List String) :=
  match prior with
  | none => csvHeader :: rows
  | some existing => existing ++ rows

/-! ### The triage sweeper (`process_wav_files`, remove_file.py) -/

/-- The per-file outcome reported by the sweep. -/
inductive TriageAction where
  | deleted
  | moved (n : ℕ)
  | skipped
deriving DecidableEq

/-- The sweep's mutable state: the running `vocal_counter` and the set
of vocal numbers whose files are present in the final folder. -/
structure SweepState where
  vocal_counter : ℕ
  finalDir : Finset ℕ
deriving DecidableEq

/-- One step of the `while os.path.exists(new_filepath)` collision loop:
starting from candidate `c`, advance past occupied numbers.  `fuel`
bounds the search; `firstFree` supplies enough fuel for the loop to
terminate on a free number. -/
def firstFreeFrom : ℕ → ℕ → Finset ℕ → ℕ
  | 0, c, _ => c
  | fuel + 1, c, dest => if c ∈ dest then firstFreeFrom fuel (c + 1) dest else c

/-- The number at which the collision loop stops: the first candidate at
or above `c` whose `vocal<N>.wav` is not present in the final folder. -/
def firstFree (c : ℕ) (dest : Finset ℕ) : ℕ :=
  firstFreeFrom (dest.card + 1) c dest

/-- The body of the per-file loop of `process_wav_files` (remove_file.py
lines 51-83) for one `.wav` file, whose measured duration is `duration`
(`none` when `get_wav_duration` returned `None`). -/
def processFile (min_duration : ℚ) (st : SweepState) (duration : Option ℚ) :
    SweepState × TriageAction :=
  match duration with
  | none => (st, .skipped)
  | some d =>
    if d < min_duration ∨ d > min_duration then
      (st, .deleted)
    else
      let n := firstFree st.vocal_counter st.finalDir
      ({ vocal_counter := n + 1, finalDir := insert n st.finalDir }, .moved n)

/-- `process_wav_files`: the sweep over the visited files, threading the
state and recording each file's outcome in order. -/
def process_wav_files (min_duration : ℚ) :
    SweepState → List (Option ℚ) → SweepState × List TriageAction
  | st, [] => (st, [])
  | st, f :: fs =>
    let step := processFile min_duration st f
    let rest := process_wav_files min_duration step.1 fs
    (rest.1, step.2 :: rest.2)

/-! ### The pipeline driver (`process_youtube_video`) -/

/-- The observable outcome of one `process_youtube_video` call: the
returned counter, the error line printed by the `except` block (if any),
and whether the `finally` cleanup ran. -/
structure PipelineResult where
  counter : ℕ
  errorLogged : Option String
  cleanedUp : Bool
deriving DecidableEq

/-- The error line printed by the `except` block:
`f"  An error occurred while processing {youtube_url}: {error_message}"`. -/
def errorLine (url msg : String) : String :=
  "  An error occurred while processing " ++ url ++ ": " ++ msg

/-- `process_youtube_video(youtube_url, split_output_dir, current_number)`
with the three delegated steps passed in as fallible computations:
`download` models `download_audio`, `extractStep` models
`extract_vocals` on the downloaded file, `splitStep` models
`split_wav_file` on the vocals file and the running counter.  The
`try/except/finally` is embedded by propagating the first error to the
log while keeping the counter, and running cleanup on every path. -/
def process_youtube_video (url : String) (download : Except String String)
    (extractStep : String → Except String String)
    (splitStep : String → ℕ → Except String ℕ)
    (current_number : ℕ) : PipelineResult :=
  match download with
  | .error e => ⟨current_number, some (errorLine url e), true⟩
  | .ok mp3 =>
    match extractStep mp3 with
    | .error e => ⟨current_number, some (errorLine url e), true⟩
    | .ok vocals =>
      match splitStep vocals current_number with
      | .error e => ⟨current_number, some (errorLine url e), true⟩
      | .ok n => ⟨n, none, true⟩

/-- All three delegated steps succeed. -/
def allStepsOk (download : Except String String)
    (extractStep : String → Except String String)
    (splitStep : String → ℕ → Except String ℕ) (current_number : ℕ) : Prop :=
  ∃ mp3 vocals n, download = .ok mp3 ∧ extractStep mp3 = .ok vocals ∧
    splitStep vocals current_number = .ok n

/-! ### Helper lemmas: the segmenter loop -/

/-- The chunk file exported at loop index `i` when the numbering started
at `base`. -/
def chunkFileAt (total_length_ms chunk_length_ms base i : ℕ) : ChunkFile :=
  ⟨vocalFilename (base + i), i * chunk_length_ms,
    min (i * chunk_length_ms + chunk_length_ms) total_length_ms⟩

/-- The CSV row written at loop index `i` when the numbering started at
`base`. -/
def csvRowAt (total_length_ms chunk_length_ms base i : ℕ) : List String :=
  [vocalFilename (base + i), format_time (i * chunk_length_ms),
    format_time (min (i * chunk_length_ms + chunk_length_ms) total_length_ms)]

lemma foldl_splitIter (total C : ℕ) :
    ∀ (n : ℕ) (st : SplitState),
      (List.range n).foldl (splitIter total C) st =
        ⟨st.current_number + n,
         st.files ++ (List.range n).map (chunkFileAt total C st.current_number),
         st.csv_rows ++ (List.range n).map (csvRowAt total C st.current_number)⟩ := by
  intro n
  induction n with
  | zero => intro st; simp
  | succ n ih =>
    intro st
    rw [List.range_succ, List.foldl_append, ih]
    simp [splitIter, chunkFileAt, csvRowAt, List.range_succ, Nat.add_assoc]

lemma split_wav_file_eq (T L s : ℕ) :
    split_wav_file T L s =
      ⟨s + num_chunks T (L * 1000),
       (List.range (num_chunks T (L * 1000))).map (chunkFileAt T (L * 1000) s),
       (List.range (num_chunks T (L * 1000))).map (csvRowAt T (L * 1000) s)⟩ := by
  unfold split_wav_file
  rw [foldl_splitIter]
  simp

/-- The chunk count computed by the loop is the ceiling of `T / C`. -/
lemma num_chunks_eq_ceil (T C : ℕ) (hC : 0 < C) :
    num_chunks T C = (T + C - 1) / C := by
  have h := Nat.div_add_mod T C
  have hlt := Nat.mod_lt T hC
  unfold num_chunks
  by_cases h0 : T % C > 0
  · simp only [h0, if_true]
    have hB : C * (T / C + 1) = C * (T / C) + C := Nat.mul_succ C (T / C)
    have e : T + C - 1 = C * (T / C + 1) + (T % C - 1) := by omega
    rw [e, Nat.mul_add_div hC, Nat.div_eq_of_lt (by omega : T % C - 1 < C)]
  · simp only [h0, if_false]
    have e : T + C - 1 = C * (T / C) + (C - 1) := by omega
    rw [e, Nat.mul_add_div hC, Nat.div_eq_of_lt (by omega : C - 1 < C)]

/-- Every chunk index below the count starts strictly inside the track. -/
lemma chunk_start_lt (T C k : ℕ) (hC : 0 < C) (hk : k < num_chunks T C) :
    k * C < T := by
  have h := Nat.div_add_mod T C
  unfold num_chunks at hk
  by_cases h0 : T % C > 0
  · simp only [h0, if_true] at hk
    have hkq : k ≤ T / C := by omega
    calc k * C ≤ T / C * C := Nat.mul_le_mul_right C hkq
    _ = C * (T / C) := Nat.mul_comm _ _
    _ < T := by omega
  · simp only [h0, if_false] at hk
    have hkq : k + 1 ≤ T / C := hk
    have : (k + 1) * C ≤ T / C * C := Nat.mul_le_mul_right C hkq
    have h2 : T / C * C = C * (T / C) := Nat.mul_comm _ _
    have h3 : (k + 1) * C = k * C + C := Nat.succ_mul k C
    omega

/-- Every chunk index other than the last ends at or inside the track
end, so those chunks are full length. -/
lemma chunk_end_le (T C k : ℕ) (hk : k + 1 < num_chunks T C) :
    (k + 1) * C ≤ T := by
  have h := Nat.div_add_mod T C
  unfold num_chunks at hk
  have hkq : k + 1 ≤ T / C := by
    by_cases h0 : T % C > 0
    · simp only [h0, if_true] at hk; omega
    · simp only [h0, if_false] at hk; omega
  calc (k + 1) * C ≤ T / C * C := Nat.mul_le_mul_right C hkq
  _ = C * (T / C) := Nat.mul_comm _ _
  _ ≤ T := by omega

/-- The total track length never exceeds `num_chunks` full chunks. -/
lemma total_le_num_chunks_mul (T C : ℕ) (hC : 0 < C) :
    T ≤ num_chunks T C * C := by
  have h := Nat.div_add_mod T C
  have hlt := Nat.mod_lt T hC
  have h1 : (T / C + 1) * C = T / C * C + C := Nat.succ_mul _ _
  have h2 : T / C * C = C * (T / C) := Nat.mul_comm _ _
  unfold num_chunks
  by_cases h0 : T % C > 0
  · simp only [h0, if_true]
    omega
  · simp only [h0, if_false, Nat.add_zero]
    omega

/-- Telescoping sum of successive differences of a step-monotone `g`. -/
lemma sum_range_succ_sub (g : ℕ → ℕ) (mono : ∀ i, g i ≤ g (i + 1)) :
    ∀ m, ((List.range m).map (fun i => g (i + 1) - g i)).sum = g m - g 0 := by
  intro m
  induction m with
  | zero => simp
  | succ m ih =>
    rw [List.range_succ, List.map_append, List.sum_append, ih]
    have h0m : g 0 ≤ g m := (monotone_nat_of_le_succ mono) (Nat.zero_le m)
    have hm := mono m
    simp only [List.map_cons, List.map_nil, List.sum_cons, List.sum_nil]
    omega

/-! ### Helper lemmas: time formatting -/

lemma format_time_decompose (H M S r : ℕ) (hM : M < 60) (hS : S < 60) (hr : r < 1000) :
    format_time (((H * 60 + M) * 60 + S) * 1000 + r) =
      pad2 H ++ ":" ++ pad2 M ++ ":" ++ pad2 S := by
  have h1 : (((H * 60 + M) * 60 + S) * 1000 + r) / 1000 = (H * 60 + M) * 60 + S := by
    omega
  have h2 : ((H * 60 + M) * 60 + S) / 60 = H * 60 + M := by omega
  have h3 : (H * 60 + M) / 60 = H := by omega
  have h4 : ((H * 60 + M) * 60 + S) % 60 = S := by omega
  have h5 : (H * 60 + M) % 60 = M := by omega
  simp only [format_time, h1, h2, h3, h4, h5]

/-! ### Helper lemmas: the collision loop -/

lemma firstFreeFrom_spec (dest : Finset ℕ) :
    ∀ (fuel c : ℕ), (dest.filter (fun x => c ≤ x)).card < fuel →
      firstFreeFrom fuel c dest ∉ dest ∧ c ≤ firstFreeFrom fuel c dest ∧
        ∀ m, c ≤ m → m < firstFreeFrom fuel c dest → m ∈ dest := by
  intro fuel
  induction fuel with
  | zero => intro c h; omega
  | succ fuel ih =>
    intro c h
    rw [show firstFreeFrom (fuel + 1) c dest =
        if c ∈ dest then firstFreeFrom fuel (c + 1) dest else c from rfl]
    by_cases hc : c ∈ dest
    · rw [if_pos hc]
      have hcard : (dest.filter (fun x => c + 1 ≤ x)).card < fuel := by
        have hsub : dest.filter (fun x => c + 1 ≤ x) ⊂ dest.filter (fun x => c ≤ x) := by
          rw [Finset.ssubset_iff_of_subset
            (Finset.monotone_filter_right dest (fun x hx => by omega))]
          refine ⟨c, Finset.mem_filter.mpr ⟨hc, Nat.le_refl c⟩, ?_⟩
          intro hmem
          have := (Finset.mem_filter.mp hmem).2
          omega
        have hlt := Finset.card_lt_card hsub
        omega
      obtain ⟨ih1, ih2, ih3⟩ := ih (c + 1) hcard
      refine ⟨ih1, by omega, ?_⟩
      intro m hcm hml
      rcases Nat.eq_or_lt_of_le hcm with h1 | h1
      · exact h1 ▸ hc
      · exact ih3 m h1 hml
    · rw [if_neg hc]
      exact ⟨hc, Nat.le_refl c, fun m h1 h2 => absurd h1 (by omega)⟩

lemma firstFree_spec (c : ℕ) (dest : Finset ℕ) :
    firstFree c dest ∉ dest ∧ c ≤ firstFree c dest ∧
      ∀ m, c ≤ m → m < firstFree c dest → m ∈ dest := by
  apply firstFreeFrom_spec
  have := Finset.card_filter_le dest (fun x => c ≤ x)
  omega

/-! ### Helper lemmas: the numbering counter fold -/

lemma counter_foldl_max (l : List String) :
    ∀ a : ℕ,
      l.foldl
        (fun max_number file =>
          if pyIsDigitStr (pyDigits (stemNoWav file)) then
            if decimalValue (pyDigits (stemNoWav file)) > max_number then
              decimalValue (pyDigits (stemNoWav file))
            else max_number
          else max_number) a =
      (l.filterMap
        (fun f =>
          if pyIsDigitStr (pyDigits (stemNoWav f)) then
            some (decimalValue (pyDigits (stemNoWav f)))
          else none)).foldl max a := by
  induction l with
  | nil => intro a; rfl
  | cons f fs ih =>
    intro a
    simp only [List.foldl_cons, List.filterMap_cons]
    by_cases hf : pyIsDigitStr (pyDigits (stemNoWav f))
    · simp only [hf, if_true, List.foldl_cons]
      rw [ih]
      congr 1
      by_cases hv : decimalValue (pyDigits (stemNoWav f)) > a
      · simp [hv, max_eq_right (Nat.le_of_lt hv)]
      · simp [hv, max_eq_left (Nat.le_of_not_lt hv)]
    · simp only [hf, if_false]
      exact ih a

lemma get_next_vocal_number_eq_max (entries : List String) :
    (get_next_vocal_number true entries).1 =
      (vocalNumbersOf entries).foldl max 0 + 1 := by
  simp only [get_next_vocal_number, vocalNumbersOf, Bool.not_true, Bool.false_eq_true,
    if_false]
  rw [counter_foldl_max]

/-! ### Claim C1: the numbering counter's contract -/

/-- C1 counterexample: the claim says the result is one more than the
maximum numeric value among entries matching `vocal<digits>.wav`, or 1
if no entry matches.  In a directory whose only entry is
`vocal1copy2.wav` no entry matches that pattern, so the claim predicts
1; the code concatenates the digit characters `1` and `2` and returns
12 + 1 = 13. -/
theorem next_number_digit_concat_counterexample :
    (get_next_vocal_number true ["vocal1copy2.wav"]).1 = 13 ∧
    ["vocal1copy2.wav"].filter specVocalDigitsName = [] ∧ (13 : ℕ) ≠ 1 := by
  decide

/-- C1 (amended): if the directory does not exist it is created and the
result is 1; otherwise the result is one more than the maximum, over
entries matching the glob `vocal*.wav` whose stem contains at least one
digit character, of the number formed by concatenating all digit
characters of the stem — or 1 when no entry contributes. -/
theorem next_number_amended_contract (entries : List String) :
    get_next_vocal_number false entries = (1, true) ∧
    (get_next_vocal_number true entries).1 = (vocalNumbersOf entries).foldl max 0 + 1 ∧
    (get_next_vocal_number true entries).2 = false := by
  refine ⟨rfl, get_next_vocal_number_eq_max entries, rfl⟩

/-! ### Claim C2: malformed names matching the glob -/

/-- C2 counterexample: the claim says an entry matching `vocal*.wav`
whose name is not of the form `vocal<digits>` (such as
`vocal1copy2.wav`) contributes nothing, so the result is the same as if
the entry were absent.  Adding `vocal1copy2.wav` next to `vocal3.wav`
changes the result from 4 to 13. -/
theorem malformed_name_counterexample :
    (get_next_vocal_number true ["vocal3.wav", "vocal1copy2.wav"]).1 = 13 ∧
    (get_next_vocal_number true ["vocal3.wav"]).1 = 4 := by
  decide

/-- C2 (amended): an entry matching the glob whose stem contains no
digit character at all (such as `vocal.wav`) is ignored — it changes
nothing and causes no error; but an entry whose stem merely contains
digits, such as `vocal1copy2.wav`, contributes the number formed by
concatenating all its digit characters (12), so it is not ignored. -/
theorem malformed_name_amended_contract (pre post : List String) (f : String)
    (h : pyDigits (stemNoWav f) = "") :
    (get_next_vocal_number true (pre ++ f :: post)).1 =
      (get_next_vocal_number true (pre ++ post)).1 ∧
    (get_next_vocal_number true ["vocal1copy2.wav"]).1 = 13 := by
  refine ⟨?_, by decide⟩
  rw [get_next_vocal_number_eq_max, get_next_vocal_number_eq_max]
  have hv : vocalNumbersOf (pre ++ f :: post) = vocalNumbersOf (pre ++ post) := by
    unfold vocalNumbersOf
    rw [List.filter_append, List.filter_append, List.filter_cons]
    by_cases hg : globMatchVocalWav f
    · simp only [hg, if_true]
      rw [List.filterMap_append, List.filterMap_append, List.filterMap_cons]
      have hdig : pyIsDigitStr (pyDigits (stemNoWav f)) = false := by
        rw [h]
        decide
      simp [hdig]
    · simp [hg]
  rw [hv]

/-- C2 witness: the amended contract applied to `vocal.wav` inserted
before `vocal2.wav`. -/
theorem malformed_name_amended_contract_witness :
    pyDigits (stemNoWav "vocal.wav") = "" ∧
    ((get_next_vocal_number true (([] : List String) ++ "vocal.wav" :: ["vocal2.wav"])).1 =
      (get_next_vocal_number true (([] : List String) ++ ["vocal2.wav"])).1 ∧
    (get_next_vocal_number true ["vocal1copy2.wav"]).1 = 13) :=
  ⟨by decide, malformed_name_amended_contract [] ["vocal2.wav"] "vocal.wav" (by decide)⟩

/-! ### Claim C4: sequential contiguous filenames -/

/-- C4: a `split_wav_file` call that produces `chunk_count` chunks names
them `vocal{start}.wav`, `vocal{start+1}.wav`, …,
`vocal{start+chunk_count-1}.wav` in chunk order, and returns
`start + chunk_count`. -/
theorem split_filename_numbering (T L s : ℕ) (_hL : 0 < L) :
    (split_wav_file T L s).files.map ChunkFile.filename =
      (List.range (split_wav_file T L s).files.length).map
        (fun i => vocalFilename (s + i)) ∧
    (split_wav_file T L s).current_number = s + (split_wav_file T L s).files.length := by
  rw [split_wav_file_eq]
  dsimp only
  constructor
  · rw [List.length_map, List.length_range, List.map_map]
    apply List.map_congr_left
    intro a _
    rfl
  · rw [List.length_map, List.length_range]

/-- C4 witness: the contract at a 65-second track, 30-second chunks,
starting number 1. -/
theorem split_filename_numbering_witness :
    0 < 30 ∧
    ((split_wav_file 65000 30 1).files.map ChunkFile.filename =
      (List.range (split_wav_file 65000 30 1).files.length).map
        (fun i => vocalFilename (1 + i)) ∧
    (split_wav_file 65000 30 1).current_number =
      1 + (split_wav_file 65000 30 1).files.length) :=
  ⟨by decide, split_filename_numbering 65000 30 1 (by decide)⟩

/-! ### Claim C3: chunk geometry -/

/-- C3: for a track of positive length and a positive chunk length, the
segmenter produces exactly `ceil(total / chunk)` chunks in order, chunk
`i` covering `[i * chunk, min((i+1) * chunk, total)]`; every chunk with
a successor is full length, and the chunk lengths sum exactly to the
total.  Lengths are in milliseconds, the unit the loop works in, with
the chunk length `chunk_length_sec * 1000`. -/
theorem split_chunk_geometry (T L s : ℕ) (_hT : 0 < T) (hL : 0 < L) :
    (split_wav_file T L s).files.length = (T + L * 1000 - 1) / (L * 1000) ∧
    (∀ i, ∀ h : i < (split_wav_file T L s).files.length,
      ((split_wav_file T L s).files.get ⟨i, h⟩).start_ms = i * (L * 1000) ∧
      ((split_wav_file T L s).files.get ⟨i, h⟩).end_ms = min ((i + 1) * (L * 1000)) T) ∧
    (∀ i, ∀ h : i < (split_wav_file T L s).files.length,
      i + 1 < (split_wav_file T L s).files.length →
      ((split_wav_file T L s).files.get ⟨i, h⟩).end_ms -
        ((split_wav_file T L s).files.get ⟨i, h⟩).start_ms = L * 1000) ∧
    ((split_wav_file T L s).files.map (fun f => f.end_ms - f.start_ms)).sum = T := by
  have hC : 0 < L * 1000 := by omega
  rw [split_wav_file_eq]
  dsimp only
  refine ⟨?_, ?_, ?_, ?_⟩
  · rw [List.length_map, List.length_range]
    exact num_chunks_eq_ceil T (L * 1000) hC
  · intro i h
    constructor
    · simp [List.get_eq_getElem, chunkFileAt]
    · simp [List.get_eq_getElem, chunkFileAt, Nat.succ_mul]
  · intro i h hi1
    have hi1n : i + 1 < num_chunks T (L * 1000) := by simpa using hi1
    have hend := chunk_end_le T (L * 1000) i hi1n
    simp only [List.get_eq_getElem, List.getElem_map, List.getElem_range, chunkFileAt]
    have hfull : i * (L * 1000) + L * 1000 ≤ T := by
      have hsm : (i + 1) * (L * 1000) = i * (L * 1000) + L * 1000 := Nat.succ_mul _ _
      omega
    rw [min_eq_left hfull]
    omega
  · rw [List.map_map]
    have hmap : (List.range (num_chunks T (L * 1000))).map
        ((fun f : ChunkFile => f.end_ms - f.start_ms) ∘ chunkFileAt T (L * 1000) s) =
        (List.range (num_chunks T (L * 1000))).map
          (fun i => min ((i + 1) * (L * 1000)) T - min (i * (L * 1000)) T) := by
      apply List.map_congr_left
      intro a ha
      have halt : a < num_chunks T (L * 1000) := List.mem_range.mp ha
      have hstart : a * (L * 1000) < T := chunk_start_lt T (L * 1000) a hC halt
      simp only [Function.comp_apply, chunkFileAt]
      rw [min_eq_left (Nat.le_of_lt hstart), Nat.succ_mul]
    rw [hmap,
      sum_range_succ_sub (fun j => min (j * (L * 1000)) T)
        (fun i => min_le_min (Nat.mul_le_mul_right (L * 1000) (Nat.le_succ i))
          (Nat.le_refl T)) (num_chunks T (L * 1000))]
    have h1 : min (num_chunks T (L * 1000) * (L * 1000)) T = T :=
      min_eq_right (total_le_num_chunks_mul T (L * 1000) hC)
    simp [h1]

/-- C3 witness: the spec scenario — a 65-second track with 30-second
chunks yields 3 chunks of lengths 30 s, 30 s and 5 s summing to 65 s. -/
theorem split_chunk_geometry_witness :
    0 < 65000 ∧ 0 < 30 ∧
    ((split_wav_file 65000 30 1).files.length = (65000 + 30 * 1000 - 1) / (30 * 1000) ∧
    (∀ i, ∀ h : i < (split_wav_file 65000 30 1).files.length,
      ((split_wav_file 65000 30 1).files.get ⟨i, h⟩).start_ms = i * (30 * 1000) ∧
      ((split_wav_file 65000 30 1).files.get ⟨i, h⟩).end_ms =
        min ((i + 1) * (30 * 1000)) 65000) ∧
    (∀ i, ∀ h : i < (split_wav_file 65000 30 1).files.length,
      i + 1 < (split_wav_file 65000 30 1).files.length →
      ((split_wav_file 65000 30 1).files.get ⟨i, h⟩).end_ms -
        ((split_wav_file 65000 30 1).files.get ⟨i, h⟩).start_ms = 30 * 1000) ∧
    ((split_wav_file 65000 30 1).files.map (fun f => f.end_ms - f.start_ms)).sum = 65000) :=
  ⟨by decide, by decide, split_chunk_geometry 65000 30 1 (by decide) (by decide)⟩

/-! ### Claim C10: a zero-length track -/

/-- C10: splitting a track of total duration 0 produces no chunk files,
writes no CSV rows, and returns the starting number unchanged. -/
theorem split_empty_track (L s : ℕ) (_hL : 0 < L) :
    split_wav_file 0 L s = ⟨s, [], []⟩ := by
  have h0 : num_chunks 0 (L * 1000) = 0 := by
    unfold num_chunks
    simp
  unfold split_wav_file
  rw [h0]
  rfl

/-- C10 witness: the empty-track contract at chunk length 30 and
starting number 7. -/
theorem split_empty_track_witness :
    0 < 30 ∧ split_wav_file 0 30 7 = ⟨7, [], []⟩ :=
  ⟨by decide, split_empty_track 30 7 (by decide)⟩

/-! ### Claim C5: the triage decision -/

/-- C5 counterexample: the claim says a qualifying file is moved under
the next name obtained via the Numbering Counter scoped to the
destination.  With the destination holding only `vocal2.wav` and the
sweep counter at its initial value 1, the code moves a qualifying file
to `vocal1.wav`, while the Numbering Counter for that directory returns
3 — the sweeper fills gaps instead of scanning for the maximum. -/
theorem triage_counter_counterexample :
    processFile 30 ⟨1, {2}⟩ (some 30) = (⟨2, {1, 2}⟩, TriageAction.moved 1) ∧
    (get_next_vocal_number true [vocalFilename 2]).1 = 3 ∧ (1 : ℕ) ≠ 3 := by
  decide

/-- C5 (amended): a measurable file whose duration differs from the
threshold in either direction is deleted and never moved, leaving the
counter and destination unchanged; one whose duration exactly equals
the threshold is physically moved into the destination under
`vocal<N>.wav`, where `N` is the first number at or above the sweep's
running counter whose name is not already present there. -/
theorem triage_decision_amended (t d : ℚ) (counter : ℕ) (dest : Finset ℕ) :
    (d ≠ t →
      processFile t ⟨counter, dest⟩ (some d) = (⟨counter, dest⟩, TriageAction.deleted)) ∧
    (d = t → ∃ n, processFile t ⟨counter, dest⟩ (some d) =
        (⟨n + 1, insert n dest⟩, TriageAction.moved n) ∧
      n ∉ dest ∧ counter ≤ n ∧ ∀ m, counter ≤ m → m < n → m ∈ dest) := by
  constructor
  · intro hne
    have hlt : d < t ∨ d > t := lt_or_gt_of_ne hne
    simp [processFile, hlt]
  · intro heq
    subst heq
    have hno : ¬(d < d ∨ d > d) := by simp
    obtain ⟨h1, h2, h3⟩ := firstFree_spec counter dest
    exact ⟨firstFree counter dest, by simp [processFile, hno], h1, h2, h3⟩

/-- C5 witness: the amended contract at threshold 30: a 29.99-second
file is deleted, a 30-second file is moved to the first free name. -/
theorem triage_decision_amended_witness :
    processFile 30 ⟨1, {2}⟩ (some (2999 / 100)) = (⟨1, {2}⟩, TriageAction.deleted) ∧
    ∃ n, processFile 30 ⟨1, {2}⟩ (some 30) =
        (⟨n + 1, insert n {2}⟩, TriageAction.moved n) ∧
      n ∉ ({2} : Finset ℕ) ∧ 1 ≤ n ∧ ∀ m, 1 ≤ m → m < n → m ∈ ({2} : Finset ℕ) :=
  ⟨(triage_decision_amended 30 (2999 / 100) 1 {2}).1 (by norm_num),
   (triage_decision_amended 30 30 1 {2}).2 rfl⟩

/-! ### Claim C6: unreadable files are skipped -/

/-- C6: a file whose duration cannot be measured is skipped and
reported: it is neither deleted nor moved, the counter and the
destination are unchanged, and the sweep continues with the remaining
files. -/
theorem sweep_skip_unreadable (t : ℚ) (st : SweepState) (fs : List (Option ℚ)) :
    processFile t st none = (st, TriageAction.skipped) ∧
    process_wav_files t st (none :: fs) =
      ((process_wav_files t st fs).1,
        TriageAction.skipped :: (process_wav_files t st fs).2) := by
  exact ⟨rfl, rfl⟩

/-! ### Claim C7: collision avoidance -/

/-- C7: when the sweeper relocates a qualifying file, the candidate
number is advanced past every occupied name, so the chosen name is not
present in the destination and no existing file is overwritten; in
particular, with `vocal1.wav` already present and the counter at 1, the
file lands on `vocal2.wav`. -/
theorem sweep_collision_avoidance (t d : ℚ) (counter : ℕ) (dest : Finset ℕ)
    (heq : d = t) :
    (∃ n, (processFile t ⟨counter, dest⟩ (some d)).2 = TriageAction.moved n ∧
      n ∉ dest ∧ counter ≤ n ∧ ∀ m, counter ≤ m → m < n → m ∈ dest) ∧
    processFile 30 ⟨1, {1}⟩ (some 30) = (⟨3, insert 2 {1}⟩, TriageAction.moved 2) := by
  subst heq
  have hno : ¬(d < d ∨ d > d) := by simp
  obtain ⟨h1, h2, h3⟩ := firstFree_spec counter dest
  exact ⟨⟨firstFree counter dest, by simp [processFile, hno], h1, h2, h3⟩, by decide⟩

/-- C7 witness: the collision contract at threshold 30, counter 1,
destination `{vocal1.wav}`. -/
theorem sweep_collision_avoidance_witness :
    (∃ n, (processFile 30 ⟨1, {1}⟩ (some 30)).2 = TriageAction.moved n ∧
      n ∉ ({1} : Finset ℕ) ∧ 1 ≤ n ∧ ∀ m, 1 ≤ m → m < n → m ∈ ({1} : Finset ℕ)) ∧
    processFile 30 ⟨1, {1}⟩ (some 30) = (⟨3, insert 2 {1}⟩, TriageAction.moved 2) :=
  sweep_collision_avoidance 30 30 1 {1} rfl

/-! ### Claim C8: the pipeline driver's failure contract -/

/-- C8: the scratch cleanup runs on every exit path, and when any of
the three delegated steps fails the error is caught, an error line
naming the URL and the message is logged, and the running counter is
returned unchanged. -/
theorem pipeline_failure_contract (url : String) (download : Except String String)
    (extractStep : String → Except String String)
    (splitStep : String → ℕ → Except String ℕ) (c : ℕ) :
    (process_youtube_video url download extractStep splitStep c).cleanedUp = true ∧
    (¬ allStepsOk download extractStep splitStep c →
      (process_youtube_video url download extractStep splitStep c).counter = c ∧
      ∃ e, (process_youtube_video url download extractStep splitStep c).errorLogged =
        some (errorLine url e)) := by
  cases download with
  | error e => exact ⟨rfl, fun _ => ⟨rfl, ⟨e, rfl⟩⟩⟩
  | ok mp3 =>
    cases hex : extractStep mp3 with
    | error e =>
      have hval : process_youtube_video url (Except.ok mp3) extractStep splitStep c =
          ⟨c, some (errorLine url e), true⟩ := by
        simp only [process_youtube_video, hex]
      rw [hval]
      exact ⟨rfl, fun _ => ⟨rfl, ⟨e, rfl⟩⟩⟩
    | ok vocals =>
      cases hsp : splitStep vocals c with
      | error e =>
        have hval : process_youtube_video url (Except.ok mp3) extractStep splitStep c =
            ⟨c, some (errorLine url e), true⟩ := by
          simp only [process_youtube_video, hex, hsp]
        rw [hval]
        exact ⟨rfl, fun _ => ⟨rfl, ⟨e, rfl⟩⟩⟩
      | ok n =>
        have hval : process_youtube_video url (Except.ok mp3) extractStep splitStep c =
            ⟨n, none, true⟩ := by
          simp only [process_youtube_video, hex, hsp]
        rw [hval]
        refine ⟨rfl, fun hna => absurd ?_ hna⟩
        exact show allStepsOk (Except.ok mp3) extractStep splitStep c from
          ⟨mp3, vocals, n, rfl, hex, hsp⟩

/-- C8 witness: a failing download step at URL `url0`: cleanup runs,
the counter 5 is returned unchanged, and the error line is logged. -/
theorem pipeline_failure_contract_witness :
    (process_youtube_video "url0" (Except.error "boom") Except.ok
      (fun _ n => Except.ok n) 5).cleanedUp = true ∧
    (process_youtube_video "url0" (Except.error "boom") Except.ok
      (fun _ n => Except.ok n) 5).counter = 5 ∧
    ∃ e, (process_youtube_video "url0" (Except.error "boom") Except.ok
      (fun _ n => Except.ok n) 5).errorLogged = some (errorLine "url0" e) := by
  have h := pipeline_failure_contract "url0" (Except.error "boom") Except.ok
    (fun _ n => Except.ok n) 5
  have hna : ¬ allStepsOk (Except.error "boom") Except.ok (fun _ n => Except.ok n) 5 := by
    rintro ⟨m, v, n, hm, -, -⟩
    exact Except.noConfusion hm
  exact ⟨h.1, (h.2 hna).1, (h.2 hna).2⟩

/-! ### Claim C9: the time-range log -/

/-- C9: one CSV row per chunk is appended in chunk order, carrying the
chunk's filename and its start and end times; the header row is written
exactly when the log file did not previously exist (otherwise rows are
simply appended); and `format_time` renders elapsed time as zero-padded
`HH:MM:SS` with an unbounded hours field. -/
theorem csv_log_contract (T L s : ℕ) (_hL : 0 < L) :
    (split_wav_file T L s).csv_rows =
      (List.range ((split_wav_file T L s).files.length)).map
        (fun i => [vocalFilename (s + i), format_time (i * (L * 1000)),
          format_time (min ((i + 1) * (L * 1000)) T)]) ∧
    csvFileAfter none (split_wav_file T L s).csv_rows =
      csvHeader :: (split_wav_file T L s).csv_rows ∧
    (∀ prior, csvFileAfter (some prior) (split_wav_file T L s).csv_rows =
      prior ++ (split_wav_file T L s).csv_rows) ∧
    (∀ H M S r, M < 60 → S < 60 → r < 1000 →
      format_time (((H * 60 + M) * 60 + S) * 1000 + r) =
        pad2 H ++ ":" ++ pad2 M ++ ":" ++ pad2 S) := by
  refine ⟨?_, rfl, fun prior => rfl,
    fun H M S r hM hS hr => format_time_decompose H M S r hM hS hr⟩
  rw [split_wav_file_eq]
  dsimp only
  rw [List.length_map, List.length_range]
  apply List.map_congr_left
  intro a _
  simp [csvRowAt, Nat.succ_mul]

/-- C9 witness: the spec scenario — a 65-second track with 30-second
chunks logs rows `(vocal1, 00:00:00, 00:00:30)`,
`(vocal2, 00:00:30, 00:01:00)`, `(vocal3, 00:01:00, 00:01:05)` after
the header, and 25 hours renders as `25:00:00`. -/
theorem csv_log_contract_witness :
    (split_wav_file 65000 30 1).csv_rows =
      [["vocal1.wav", "00:00:00", "00:00:30"],
       ["vocal2.wav", "00:00:30", "00:01:00"],
       ["vocal3.wav", "00:01:00", "00:01:05"]] ∧
    csvFileAfter none (split_wav_file 65000 30 1).csv_rows =
      csvHeader :: (split_wav_file 65000 30 1).csv_rows ∧
    format_time (((25 * 60 + 0) * 60 + 0) * 1000 + 0) = "25:00:00" := by
  have h := csv_log_contract 65000 30 1 (by decide)
  refine ⟨by decide, h.2.1, ?_⟩
  rw [h.2.2.2 25 0 0 0 (by decide) (by decide) (by decide)]
  decide

end YtDown
